import Mathlib

/-!
Shallow embedding of `src/gurobi_optimods/opf/graphics.py` (the OPF plotting
module): the layout engine (`_coords_from_sfdp`, `_coords_circle`,
`_get_coords`), the figure post-processing passes (`_restyle_annotations`,
`_tune_traces`) and the two orchestrators (`solution_plot`, `violation_plot`).

Modelling conventions:
* Python floats are modelled as exact rationals `ℚ`.
* Python dicts are modelled as association lists in insertion order;
  `dictSet` is `d[k] = v` (overwrite keeps the original position, a fresh key
  is appended), `dictGet?` is `d[k]` and `pyDictOfList` builds a dict from a
  stream of key/value pairs the way a Python loop or comprehension does.
* Exceptions are modelled with `Except PyErr`; the external `sfdp` subprocess
  is modelled by a `ToolOutcome` argument (its tokenized stdout on success,
  or the failure class raised by `subprocess.check_output`).
* The external collaborators (`converters.convert_case_to_internal_format`,
  `converters.grbmap_coords_from_dict`, `grbgraphical.generate_*_figure`) and
  the Python primitives `math.pi`, `math.sin`, `math.cos`, `int(...)`,
  `float(...)` are opaque: they are passed in as function arguments
  (`PyPrims` bundles the primitives), so every theorem quantifies over them.
-/

/-- Bundle of the opaque Python primitives used by `graphics.py`:
`int(s)` / `float(s)` on strings (`none` models the `ValueError` raise), and
`math.pi`, `math.sin`, `math.cos`. -/
structure PyPrims where
  parseInt : String → Option ℤ
  parseFloat : String → Option ℚ
  pi : ℚ
  sin : ℚ → ℚ
  cos : ℚ → ℚ

/-- The exception classes that the module can raise or catch:
`FileNotFoundError` and `subprocess.CalledProcessError` from the `sfdp`
invocation, `ValueError` from `int`/`float`/`min`, `KeyError` from dict
subscripts. -/
inductive PyErr where
  | fileNotFoundError
  | calledProcessError
  | valueError
  | keyError
deriving DecidableEq

/-- Outcome of the `subprocess.check_output(["sfdp", ...])` call: either its
stdout (split into lines, each line split into whitespace tokens, mirroring
`out.splitlines()` / `line.split()`), or one of the two failure classes. -/
inductive ToolOutcome where
  | output (outLines : List (List String))
  | fileNotFound
  | calledProcessError

/-- The slice of the `alldata` internal-format dictionary that `graphics.py`
reads or writes: the `IDtoCountmap` bus-id → count dict, and the
`alldata["graphical"]["numfeatures"]` setting written by the orchestrators. -/
structure AllData where
  IDtoCountmap : List (ℤ × ℤ)
  graphical_numfeatures : Option ℤ

/-- A dynamically-typed plotly style value: a number, something on which
`float(...)` raises (`None`, a non-numeric string, ...), or a list/tuple of
values. -/
inductive StyleVal where
  | num (q : ℚ)
  | nonnum
  | vlist (elems : List StyleVal)

/-- A plotly trace as seen by `_tune_traces`: its `mode` string (possibly
`None`), its `line.width` and its `marker.size`. A `none` in `line_width`
(resp. `marker_size`) models `hasattr` being false, so the pass skips the
trace; a present-but-malformed value is `some .nonnum`. -/
structure Trace where
  mode : Option String
  line_width : Option StyleVal
  marker_size : Option StyleVal

/-- A plotly annotation with the fields `graphics.py` reads (`text`) and the
fields `fig.add_annotation` sets. `text := none` models a non-`str` text, so
the `isinstance(a.text, str)` guard fails. -/
structure Annot where
  text : Option String
  xref : Option String
  yref : Option String
  x : Option ℚ
  y : Option ℚ
  xanchor : Option String
  yanchor : Option String
  showarrow : Option Bool
  align : Option String
  bgcolor : Option String
  bordercolor : Option String
  borderwidth : Option ℚ
  borderpad : Option ℚ
  font_size : Option ℚ
  font_color : Option String

/-- A plotly figure restricted to the parts `graphics.py` observes and
mutates: the trace list `fig.data`, `fig.layout.annotations`, and the layout
fields set by `fig.update_layout` / `fig.update_xaxes` / `fig.update_yaxes`. -/
structure Figure where
  data : List Trace
  annotations : List Annot
  width : Option ℤ
  height : Option ℤ
  margin_l : Option ℤ
  margin_r : Option ℤ
  margin_t : Option ℤ
  margin_b : Option ℤ
  paper_bgcolor : Option String
  plot_bgcolor : Option String
  xaxis_visible : Option Bool
  yaxis_visible : Option Bool
  yaxis_scaleanchor : Option String
  yaxis_scaleratio : Option ℚ

/-- Decidable equality for `Except`, used to evaluate the model on concrete
inputs. -/
instance {ε α : Type} [DecidableEq ε] [DecidableEq α] : DecidableEq (Except ε α) :=
  fun x y =>
  match x, y with
  | .ok a, .ok b =>
    if h : a = b then isTrue (by rw [h]) else isFalse (fun he => by cases he; exact h rfl)
  | .error a, .error b =>
    if h : a = b then isTrue (by rw [h]) else isFalse (fun he => by cases he; exact h rfl)
  | .ok _, .error _ => isFalse (fun he => by cases he)
  | .error _, .ok _ => isFalse (fun he => by cases he)

/-- Keys of a Python dict, in insertion order. -/
def dictKeys {β : Type} (d : List (ℤ × β)) : List ℤ := d.map Prod.fst

/-- Python dict subscript `d[k]`: `none` models the `KeyError` raise. -/
def dictGet? {β : Type} (d : List (ℤ × β)) (k : ℤ) : Option β :=
  (d.find? (fun p => decide (p.1 = k))).map Prod.snd

/-- Python dict assignment `d[k] = v`: overwriting keeps the key's original
insertion position, a fresh key is appended at the end. -/
def dictSet {β : Type} (d : List (ℤ × β)) (k : ℤ) (v : β) : List (ℤ × β) :=
  if k ∈ dictKeys d then d.map (fun p => if p.1 = k then (k, v) else p)
  else d ++ [(k, v)]

/-- Build a Python dict by assigning a stream of key/value pairs in order
(as a `for` loop over assignments or a dict comprehension does). -/
def pyDictOfList {β : Type} (l : List (ℤ × β)) : List (ℤ × β) :=
  l.foldl (fun d p => dictSet d p.1 p.2) []

/-- Python `min` over a list of floats; `none` models the `ValueError` raised
on an empty collection. -/
def pyMin (l : List ℚ) : Option ℚ :=
  match l with
  | [] => none
  | a :: t => some (t.foldl min a)

/-- Python substring test `pat in hay`. -/
def pyIn (pat hay : String) : Bool := decide (pat.toList <:+: hay.toList)

/-- Python `s.startswith(p)`. -/
def pyStartsWith (s p : String) : Bool := p.toList.isPrefixOf s.toList

/-- Python `s.strip()`: drop leading and trailing whitespace. -/
def pyStrip (s : String) : String :=
  ⟨(((s.toList).dropWhile Char.isWhitespace).reverse.dropWhile Char.isWhitespace).reverse⟩

/-- Python `"<br>".join(lines)`. -/
def joinBr : List String → String
  | [] => ""
  | [a] => a
  | a :: b :: rest => a ++ "<br>" ++ joinBr (b :: rest)

/-- The parsing loop of `_coords_from_sfdp` over the tool's stdout lines:
for each line whose tokens satisfy `len(parts) >= 4 and parts[0] == "node"`,
run `name = int(parts[1])`, `x[name] = float(parts[2])`,
`y[name] = float(parts[3])`; a failed `int`/`float` raises `ValueError`. -/
def parseNodes (P : PyPrims) :
    List (List String) → List (ℤ × ℚ) → List (ℤ × ℚ) →
    Except PyErr (List (ℤ × ℚ) × List (ℤ × ℚ))
  | [], x, y => .ok (x, y)
  | parts :: rest, x, y =>
    if 4 ≤ parts.length ∧ parts.head? = some "node" then
      match P.parseInt (parts.getD 1 "") with
      | none => .error .valueError
      | some name =>
        match P.parseFloat (parts.getD 2 "") with
        | none => .error .valueError
        | some X =>
          match P.parseFloat (parts.getD 3 "") with
          | none => .error .valueError
          | some Y => parseNodes P rest (dictSet x name X) (dictSet y name Y)
    else parseNodes P rest x y

/-- The emission loop of `_coords_from_sfdp`: `for cnt, X in x.items():`
`Y = y[cnt]`, `Xn, Yn = (X - minx), (Y - miny)`, `bus_i = CountToID[cnt]`,
`coords[bus_i] = (Yn, Xn)` — note the intentional axis swap: the stored pair
is `(lat, lon) = (Yn, Xn)`. -/
def emitCoords (CountToID : List (ℤ × ℤ)) (y : List (ℤ × ℚ)) (minx miny : ℚ) :
    List (ℤ × ℚ) → List (ℤ × ℚ × ℚ) → Except PyErr (List (ℤ × ℚ × ℚ))
  | [], coords => .ok coords
  | (cnt, X) :: rest, coords =>
    match dictGet? y cnt with
    | none => .error .keyError
    | some Y =>
      match dictGet? CountToID cnt with
      | none => .error .keyError
      | some bus => emitCoords CountToID y minx miny rest
          (dictSet coords bus (Y - miny, X - minx))

/-- `_coords_from_sfdp(case, seed=1234)`: runs Graphviz `sfdp -Tplain` on the
serialized graph (the temp-file serialization and the subprocess itself are
abstracted into the `tool : ToolOutcome` argument), parses `node <id> <x> <y>`
lines, shifts the coordinates so the minima are zero and emits `(Yn, Xn)`
pairs keyed by original bus ids through `CountToID`, the inversion
`{v: k for k, v in IDtoCount.items()}` of `IDtoCountmap`. -/
def _coords_from_sfdp {Case : Type} (P : PyPrims) (convert : Case → AllData)
    (case : Case) (tool : ToolOutcome) : Except PyErr (List (ℤ × ℚ × ℚ)) :=
  let alldata := convert case
  let CountToID := pyDictOfList (alldata.IDtoCountmap.map (fun p => (p.2, p.1)))
  match tool with
  | .fileNotFound => .error .fileNotFoundError
  | .calledProcessError => .error .calledProcessError
  | .output outLines =>
    match parseNodes P outLines [] [] with
    | .error e => .error e
    | .ok (x, y) =>
      match pyMin (x.map Prod.snd), pyMin (y.map Prod.snd) with
      | some minx, some miny => emitCoords CountToID y minx miny x []
      | _, _ => .error .valueError

/-- `_coords_circle(case)`: the deterministic fallback. Sorts the bus ids
ascending and places rank `k` of `n` at angle `2π·k/max(1, n)` on a circle of
radius `100.0`, storing `coords[bus] = (y, x) = (R·sin θ, R·cos θ)`. -/
def _coords_circle {Case : Type} (P : PyPrims) (convert : Case → AllData)
    (case : Case) : List (ℤ × ℚ × ℚ) :=
  let alldata := convert case
  let bus_ids := (alldata.IDtoCountmap.map Prod.fst).insertionSort (· ≤ ·)
  let n := bus_ids.length
  pyDictOfList (bus_ids.enum.map (fun p =>
    let theta := 2 * P.pi * (p.1 : ℚ) / ((max 1 n : ℕ) : ℚ)
    (p.2, (100 * P.sin theta, 100 * P.cos theta))))

/-- `_get_coords(case, coords)`: return caller-supplied coords unchanged;
otherwise try `_coords_from_sfdp` and fall back to `_coords_circle` exactly on
`except (FileNotFoundError, subprocess.CalledProcessError)`, re-raising every
other exception. -/
def _get_coords {Case : Type} (P : PyPrims) (convert : Case → AllData)
    (case : Case) (tool : ToolOutcome) (coords : Option (List (ℤ × ℚ × ℚ))) :
    Except PyErr (List (ℤ × ℚ × ℚ)) :=
  match coords with
  | some c => .ok c
  | none =>
    match _coords_from_sfdp P convert case tool with
    | .ok c => .ok c
    | .error .fileNotFoundError => .ok (_coords_circle P convert case)
    | .error .calledProcessError => .ok (_coords_circle P convert case)
    | .error e => .error e

/-- The fixed legend lines composed by `_restyle_annotations` after the
optional objective line. -/
def legendLines : List String :=
  ["No lines turned off",
   "",
   "<b>Bus colors</b>",
   "Black: generation ≤ 75 & load < 50",
   "<span style=\"color:#1f77b4\">Blue</span>: generation ≤ 75 & load ≥ 50",
   "<span style=\"color:#9467bd\">Purple</span>: generation > 75",
   "<span style=\"color:#ff7f0e\">Orange</span>: generation > 150",
   "<span style=\"color:#d62728\">Red</span>: generation > 500"]

/-- The single annotation block added by `fig.add_annotation(...)` inside
`_restyle_annotations`, with the fixed placement and styling kwargs. -/
def newAnnotBlock (txt : String) : Annot :=
  { text := some txt, xref := some "paper", yref := some "paper",
    x := some 0.02, y := some 0.98,
    xanchor := some "left", yanchor := some "top",
    showarrow := some false, align := some "left",
    bgcolor := some "rgba(255,255,255,0.90)",
    bordercolor := some "rgba(0,0,0,0.15)",
    borderwidth := some 1, borderpad := some 6,
    font_size := some 16, font_color := some "black" }

/-- `_restyle_annotations(fig, obj_text=None)`: clears
`fig.layout.annotations`, builds the text block (the bolded objective line
plus a blank line when `obj_text` is truthy, then the fixed legend joined
with `"<br>"`), and adds the single new annotation. The `if obj_text:` test
is Python truthiness: `None` and the empty string are falsy. -/
def _restyle_annotations (fig : Figure) (objText : Option String) : Figure :=
  let headLines : List String :=
    match objText with
    | some t => if t = "" then [] else ["<b>" ++ t ++ "</b>", ""]
    | none => []
  let txt := joinBr (headLines ++ legendLines)
  { fig with annotations := [newAnnotBlock txt] }

/-- The objective scan in `solution_plot`: the first annotation with a `str`
text whose stripped form starts with `"OBJ"`, returned stripped. -/
def findObjText : List Annot → Option String
  | [] => none
  | a :: rest =>
    match a.text with
    | some t =>
      if pyStartsWith (pyStrip t) "OBJ" then some (pyStrip t) else findObjText rest
    | none => findObjText rest

/-- The inner `bump(v)` of `_tune_traces`: `float(v)` with `TypeError` and
`ValueError` degrading to `6.0`, then `min(max(6.0, fv * 1.12), 18.0)`. -/
def bump : StyleVal → ℚ
  | .num q => min (max 6 (q * 1.12)) 18
  | _ => min (max 6 ((6 : ℚ) * 1.12)) 18

/-- The per-trace body of `_tune_traces`: scale-and-clamp `line.width` when
`"lines" in mode` (an unparsable width degrades to `1.0` via the
`except Exception` catch), and scale-and-clamp `marker.size` when
`"markers" in mode`, element-wise for a list/tuple size. -/
def tuneTrace (tr : Trace) : Trace :=
  let mode := tr.mode.getD ""
  let tr1 :=
    if pyIn "lines" mode then
      match tr.line_width with
      | some w =>
        let oldw := match w with
          | .num q => q
          | _ => 1
        { tr with line_width := some (.num (min (max 0.8 (oldw * 1.08)) 2.2)) }
      | none => tr
    else tr
  if pyIn "markers" mode then
    match tr1.marker_size with
    | some s =>
      match s with
      | .vlist elems =>
        { tr1 with marker_size := some (.vlist (elems.map (fun v => .num (bump v)))) }
      | v => { tr1 with marker_size := some (.num (bump v)) }
    | none => tr1
  else tr1

/-- `_tune_traces(fig)`: apply `tuneTrace` to every trace of `fig.data`. -/
def _tune_traces (fig : Figure) : Figure :=
  { fig with data := fig.data.map tuneTrace }

/-- The `alldata["graphical"] = {}; alldata["graphical"]["numfeatures"] = 0`
settings done by both orchestrators. -/
def setGraphical (alldata : AllData) : AllData :=
  { alldata with graphical_numfeatures := some 0 }

/-- `solution_plot(case, coords=None, solution, width=1200, height=900,
keep_obj=True)`, modelled with the evident intent of the source restored: the
source line `def solution_plot(case, coords=None, solution, ...)` is a Python
`SyntaxError` (a non-default parameter follows a default one) and line 55
reads `if coords = None:` (assignment in an `if`, another `SyntaxError`); the
docstring and the rest of the body make the intent `if coords is None`
unambiguous. Pipeline: convert the case, resolve coordinates via
`_get_coords`, map them into `alldata`, build the base figure, scan for the
`"OBJ"` annotation, restyle annotations (dropping the objective text when
`keep_obj` is false), apply the fixed layout cosmetics, and tune the traces. -/
def solution_plot {Case Solution : Type} (P : PyPrims)
    (convert : Case → AllData)
    (grbmap : AllData → List (ℤ × ℚ × ℚ) → AllData)
    (genSolutionFigure : AllData → Solution → Figure)
    (case : Case) (tool : ToolOutcome)
    (coords : Option (List (ℤ × ℚ × ℚ))) (solution : Solution)
    (width height : ℤ) (keep_obj : Bool) : Except PyErr Figure :=
  let alldata := setGraphical (convert case)
  match _get_coords P convert case tool coords with
  | .error e => .error e
  | .ok coords2 =>
    let alldata2 := grbmap alldata coords2
    let fig := genSolutionFigure alldata2 solution
    let obj_text := findObjText fig.annotations
    let fig2 := _restyle_annotations fig (if keep_obj then obj_text else none)
    let fig3 := { fig2 with
      width := some width, height := some height,
      margin_l := some 20, margin_r := some 20,
      margin_t := some 20, margin_b := some 20,
      paper_bgcolor := some "white", plot_bgcolor := some "white",
      xaxis_visible := some false, yaxis_visible := some false,
      yaxis_scaleanchor := some "x", yaxis_scaleratio := some 1 }
    .ok (_tune_traces fig3)

/-- `violation_plot(case, coords, violations)`: convert the case, set the
graphical settings, map the mandatory caller-supplied coords into `alldata`
and return `generate_violations_figure(alldata, violations)` raw. The
`P`/`tool` arguments model the ambient layout-engine environment; the
function never consults them (no auto-layout path, no post-processing). -/
def violation_plot {Case Violations : Type} (P : PyPrims)
    (convert : Case → AllData)
    (grbmap : AllData → List (ℤ × ℚ × ℚ) → AllData)
    (genViolationsFigure : AllData → Violations → Figure)
    (case : Case) (tool : ToolOutcome)
    (coords : List (ℤ × ℚ × ℚ)) (violations : Violations) : Figure :=
  let alldata := setGraphical (convert case)
  let alldata2 := grbmap alldata coords
  genViolationsFigure alldata2 violations

/-! ### Helper lemmas about the Python-dict model -/

theorem dictSet_fresh {β : Type} (d : List (ℤ × β)) (k : ℤ) (v : β)
    (h : k ∉ dictKeys d) : dictSet d k v = d ++ [(k, v)] := by
  simp [dictSet, h]

theorem parseNodes_skip (P : PyPrims) :
    ∀ (ls : List (List String)) (x y : List (ℤ × ℚ)),
    (∀ parts ∈ ls, ¬(4 ≤ parts.length ∧ parts.head? = some "node")) →
    parseNodes P ls x y = .ok (x, y) := by
  intro ls
  induction ls with
  | nil => intro x y _; rfl
  | cons parts rest ih =>
    intro x y h
    have hp := h parts (List.mem_cons_self _ _)
    simp only [parseNodes, if_neg hp]
    exact ih x y (fun q hq => h q (List.mem_cons_of_mem _ hq))

/-! ### Claim C10: empty network gives an empty circular layout -/

/-- C10: for a network with zero buses, `_coords_circle` returns the empty
coordinate map; the `max(1, n)` divisor means no division by zero occurs (in
this exact-arithmetic model the divisor is the nonzero `max 1 0 = 1`). -/
theorem coords_circle_empty_network {Case : Type} (P : PyPrims)
    (convert : Case → AllData) (case : Case)
    (h : (convert case).IDtoCountmap = []) :
    _coords_circle P convert case = [] := by
  simp [_coords_circle, h, pyDictOfList]

/-- Witness for C10 at a concrete empty network. -/
theorem coords_circle_empty_network_witness :
    ((fun _ : Unit => AllData.mk [] none) ()).IDtoCountmap = [] ∧
    _coords_circle ⟨fun _ => none, fun _ => none, 0, id, id⟩
      (fun _ : Unit => AllData.mk [] none) () = [] :=
  ⟨rfl, coords_circle_empty_network _ _ _ rfl⟩

/-! ### Claim C7: violation_plot is layout-free and post-processing-free -/

/-- C7: `violation_plot` returns the Figure Builder's figure unmodified (no
annotation restyle, no trace tuning, no layout cosmetics are applied: the
result is literally `generate_violations_figure` on the converted case with
the caller-supplied coords mapped in), and it never invokes the Layout
Engine: the result does not depend on the layout-tool outcome or on the
layout primitives. -/
theorem violation_plot_raw_figure {Case Violations : Type} (P P' : PyPrims)
    (convert : Case → AllData)
    (grbmap : AllData → List (ℤ × ℚ × ℚ) → AllData)
    (genViolationsFigure : AllData → Violations → Figure)
    (case : Case) (tool tool' : ToolOutcome)
    (coords : List (ℤ × ℚ × ℚ)) (violations : Violations) :
    violation_plot P convert grbmap genViolationsFigure case tool coords violations =
      genViolationsFigure (grbmap (setGraphical (convert case)) coords) violations ∧
    violation_plot P convert grbmap genViolationsFigure case tool coords violations =
      violation_plot P' convert grbmap genViolationsFigure case tool' coords violations :=
  ⟨rfl, rfl⟩

/-! ### Claim C4: the strategy resolver's narrow catch scope -/

/-- C4: `_get_coords` returns caller-supplied coords unchanged (independently
of the tool) when `coords` is not `None`; otherwise it returns the
force-directed result on success, falls back to `_coords_circle` exactly on
`FileNotFoundError` / `CalledProcessError`, and re-raises every other
exception. -/
theorem get_coords_dispatch {Case : Type} (P : PyPrims)
    (convert : Case → AllData) (case : Case) :
    (∀ (tool : ToolOutcome) (c : List (ℤ × ℚ × ℚ)),
      _get_coords P convert case tool (some c) = .ok c) ∧
    (∀ (tool : ToolOutcome) (m : List (ℤ × ℚ × ℚ)),
      _coords_from_sfdp P convert case tool = .ok m →
      _get_coords P convert case tool none = .ok m) ∧
    (∀ tool : ToolOutcome,
      (_coords_from_sfdp P convert case tool = .error .fileNotFoundError ∨
       _coords_from_sfdp P convert case tool = .error .calledProcessError) →
      _get_coords P convert case tool none = .ok (_coords_circle P convert case)) ∧
    (∀ (tool : ToolOutcome) (e : PyErr),
      _coords_from_sfdp P convert case tool = .error e →
      e ≠ .fileNotFoundError → e ≠ .calledProcessError →
      _get_coords P convert case tool none = .error e) := by
  refine ⟨fun tool c => rfl, fun tool m h => by simp [_get_coords, h], ?_, ?_⟩
  · rintro tool (h | h) <;> simp [_get_coords, h]
  · intro tool e h h1 h2
    cases e with
    | fileNotFoundError => exact absurd rfl h1
    | calledProcessError => exact absurd rfl h2
    | valueError => simp [_get_coords, h]
    | keyError => simp [_get_coords, h]

/-- Witness for C4: a concrete successful `sfdp` run is returned as-is, and a
concrete `KeyError`-class failure is re-raised rather than falling back. -/
theorem get_coords_dispatch_witness :
    _coords_from_sfdp ⟨fun _ => some 1, fun _ => some 0, 0, id, id⟩
      (fun _ : Unit => AllData.mk [(5, 1)] none) () (.output [["node", "1", "0", "0"]]) =
      .ok [(5, (0, 0))] ∧
    _get_coords ⟨fun _ => some 1, fun _ => some 0, 0, id, id⟩
      (fun _ : Unit => AllData.mk [(5, 1)] none) () (.output [["node", "1", "0", "0"]]) none =
      .ok [(5, (0, 0))] :=
  ⟨by simp +decide [_coords_from_sfdp, parseNodes, emitCoords, dictSet, dictGet?, dictKeys,
      pyDictOfList, pyMin],
   (get_coords_dispatch ⟨fun _ => some 1, fun _ => some 0, 0, id, id⟩
      (fun _ : Unit => AllData.mk [(5, 1)] none) ()).2.1 _ _
     (by simp +decide [_coords_from_sfdp, parseNodes, emitCoords, dictSet, dictGet?, dictKeys,
        pyDictOfList, pyMin])⟩

/-! ### Claim C9: a zero-exit run with no node lines raises and propagates -/

/-- C9: if the tool runs and exits zero but stdout has no line of the shape
`node <id> <x> <y> ...`, both coordinate dicts stay empty, so
`min(x.values())` raises `ValueError`; `_get_coords` does not catch it, so it
propagates instead of triggering the circular fallback. -/
theorem sfdp_no_nodes_propagates {Case : Type} (P : PyPrims)
    (convert : Case → AllData) (case : Case) (outLines : List (List String))
    (h : ∀ parts ∈ outLines, ¬(4 ≤ parts.length ∧ parts.head? = some "node")) :
    _coords_from_sfdp P convert case (.output outLines) = .error .valueError ∧
    _get_coords P convert case (.output outLines) none = .error .valueError := by
  have h1 : _coords_from_sfdp P convert case (.output outLines) = .error .valueError := by
    simp only [_coords_from_sfdp, parseNodes_skip P outLines [] [] h]
    rfl
  exact ⟨h1, by simp [_get_coords, h1]⟩

/-- Witness for C9 on a concrete nodeless stdout. -/
theorem sfdp_no_nodes_propagates_witness :
    (∀ parts ∈ [["graph"], ["stop", "1", "2", "3"]],
      ¬(4 ≤ parts.length ∧ parts.head? = some "node")) ∧
    _get_coords ⟨fun _ => none, fun _ => none, 0, id, id⟩
      (fun _ : Unit => AllData.mk [(5, 1)] none) ()
      (.output [["graph"], ["stop", "1", "2", "3"]]) none = .error .valueError :=
  ⟨by decide,
   (sfdp_no_nodes_propagates ⟨fun _ => none, fun _ => none, 0, id, id⟩
      (fun _ : Unit => AllData.mk [(5, 1)] none) () _ (by decide)).2⟩

/-! ### Claim C1: solution_plot with coords=None and no external tool -/

/-- C1 (intended behaviour): with `coords=None` and the external tool
unavailable (`FileNotFoundError`), `solution_plot` does not raise and returns
a figure whose layout width and height equal the `width`/`height` arguments
(the source defaults them to 1200 and 900). This is stated about the
intent-restored model `solution_plot`: the source itself cannot even be
imported, because `def solution_plot(case, coords=None, solution, ...)`
places a non-default parameter after a default one and line 55 reads
`if coords = None:`, both Python `SyntaxError`s. -/
theorem solution_plot_fallback_returns_sized_figure {Case Solution : Type}
    (P : PyPrims) (convert : Case → AllData)
    (grbmap : AllData → List (ℤ × ℚ × ℚ) → AllData)
    (genSolutionFigure : AllData → Solution → Figure)
    (case : Case) (solution : Solution) (width height : ℤ) (keep_obj : Bool) :
    ∃ fig : Figure,
      solution_plot P convert grbmap genSolutionFigure case .fileNotFound
        none solution width height keep_obj = .ok fig ∧
      fig.width = some width ∧ fig.height = some height :=
  ⟨_, rfl, rfl, rfl⟩


/-! ### Claim C3: trace tuning bounds and defaults -/

theorem clamp_w_bounds (z : ℚ) :
    (0.8 : ℚ) ≤ min (max 0.8 (z * 1.08)) 2.2 ∧ min (max (0.8 : ℚ) (z * 1.08)) 2.2 ≤ 2.2 :=
  ⟨le_min (le_max_left _ _) (by norm_num), min_le_right _ _⟩

theorem bump_mem_range (v : StyleVal) : (6 : ℚ) ≤ bump v ∧ bump v ≤ 18 := by
  cases v <;> exact ⟨le_min (le_max_left _ _) (by norm_num), min_le_right _ _⟩

theorem tuneTrace_keeps_mode (tr : Trace) : (tuneTrace tr).mode = tr.mode := by
  obtain ⟨mo, lw, ms⟩ := tr
  by_cases h1 : pyIn "lines" (mo.getD "") = true <;>
    by_cases h2 : pyIn "markers" (mo.getD "") = true <;>
      cases lw <;> cases ms <;>
        simp [tuneTrace, h1, h2] <;> (try split) <;> rfl

theorem tuneTrace_line_width (tr : Trace) :
    (tuneTrace tr).line_width =
      if pyIn "lines" (tr.mode.getD "") = true then
        tr.line_width.map (fun w =>
          .num (min (max 0.8 ((match w with | StyleVal.num q => q | _ => 1) * 1.08)) 2.2))
      else tr.line_width := by
  obtain ⟨mo, lw, ms⟩ := tr
  by_cases h1 : pyIn "lines" (mo.getD "") = true <;>
    by_cases h2 : pyIn "markers" (mo.getD "") = true <;>
      cases lw <;> cases ms <;>
        simp [tuneTrace, h1, h2] <;> (try split) <;> rfl

theorem tuneTrace_marker_size (tr : Trace) :
    (tuneTrace tr).marker_size =
      if pyIn "markers" (tr.mode.getD "") = true then
        tr.marker_size.map (fun s =>
          match s with
          | StyleVal.vlist elems => .vlist (elems.map (fun v => .num (bump v)))
          | v => .num (bump v))
      else tr.marker_size := by
  obtain ⟨mo, lw, ms⟩ := tr
  by_cases h1 : pyIn "lines" (mo.getD "") = true <;>
    by_cases h2 : pyIn "markers" (mo.getD "") = true <;>
      cases lw <;> cases ms <;>
        simp [tuneTrace, h1, h2] <;> (try split) <;> rfl

/-- C3: after `_tune_traces` every trace whose mode contains `"lines"` and
which carries a line width has it as a number in `[0.8, 2.2]`; every trace
whose mode contains `"markers"` and carries a marker size has it as a number
in `[6.0, 18.0]`, element-wise for list sizes. An unparsable width is
replaced by `1.0` before the `×1.08` scaling (result `1.08`), an unparsable
scalar size by `6.0` before the `×1.12` scaling (result `6.72`), and `bump`
maps every unparsable list element to `6.72`; the pass is a total function,
so it never raises on malformed style data (negative, non-numeric or
list-valued attributes included). -/
theorem tune_traces_bounds_and_defaults (fig : Figure) :
    (_tune_traces fig).data = fig.data.map tuneTrace ∧
    (∀ tr ∈ (_tune_traces fig).data,
      (pyIn "lines" (tr.mode.getD "") = true →
        ∀ v, tr.line_width = some v → ∃ w, v = .num w ∧ (0.8 : ℚ) ≤ w ∧ w ≤ 2.2) ∧
      (pyIn "markers" (tr.mode.getD "") = true →
        ∀ v, tr.marker_size = some v →
          (∃ s, v = .num s ∧ (6 : ℚ) ≤ s ∧ s ≤ 18) ∨
          (∃ l, v = .vlist l ∧ ∀ e ∈ l, ∃ s, e = .num s ∧ (6 : ℚ) ≤ s ∧ s ≤ 18))) ∧
    (∀ tr : Trace,
      (pyIn "lines" (tr.mode.getD "") = true →
        ∀ v, tr.line_width = some v → (∀ q, v ≠ .num q) →
          (tuneTrace tr).line_width = some (.num 1.08)) ∧
      (pyIn "markers" (tr.mode.getD "") = true →
        ∀ v, tr.marker_size = some v → (∀ q, v ≠ .num q) → (∀ l, v ≠ .vlist l) →
          (tuneTrace tr).marker_size = some (.num 6.72))) ∧
    (bump .nonnum = 6.72 ∧ ∀ l : List StyleVal, bump (.vlist l) = 6.72) := by
  refine ⟨rfl, ?_, ?_, by norm_num [bump, min_def, max_def], fun l => by norm_num [bump, min_def, max_def]⟩
  · intro tr htr
    obtain ⟨tr0, -, rfl⟩ := List.mem_map.mp htr
    constructor
    · intro h1 v hv
      rw [tuneTrace_keeps_mode] at h1
      rw [tuneTrace_line_width, if_pos h1] at hv
      obtain ⟨w0, -, rfl⟩ := Option.map_eq_some'.mp hv
      exact ⟨_, rfl, clamp_w_bounds _⟩
    · intro h2 v hv
      rw [tuneTrace_keeps_mode] at h2
      rw [tuneTrace_marker_size, if_pos h2] at hv
      obtain ⟨s0, -, rfl⟩ := Option.map_eq_some'.mp hv
      cases s0 with
      | vlist elems =>
        refine Or.inr ⟨_, rfl, ?_⟩
        intro e he
        obtain ⟨e0, -, rfl⟩ := List.mem_map.mp he
        exact ⟨_, rfl, bump_mem_range _⟩
      | num q => exact Or.inl ⟨_, rfl, bump_mem_range _⟩
      | nonnum => exact Or.inl ⟨_, rfl, bump_mem_range _⟩
  · intro tr
    constructor
    · intro h1 v hv hnum
      rw [tuneTrace_line_width, if_pos h1, hv]
      cases v with
      | num q => exact absurd rfl (hnum q)
      | nonnum => norm_num [Option.map_some', min_def, max_def]
      | vlist l => norm_num [Option.map_some', min_def, max_def]
    · intro h2 v hv hnum hlist
      rw [tuneTrace_marker_size, if_pos h2, hv]
      cases v with
      | num q => exact absurd rfl (hnum q)
      | vlist l => exact absurd rfl (hlist l)
      | nonnum => norm_num [Option.map_some', bump, min_def, max_def]

/-- Witness for C3 on a concrete malformed trace: an unparsable width becomes
`1.08` and an unparsable scalar marker size becomes `6.72`. -/
theorem tune_traces_bounds_and_defaults_witness :
    pyIn "lines" ((some "lines+markers" : Option String).getD "") = true ∧
    (tuneTrace ⟨some "lines+markers", some .nonnum, some .nonnum⟩).line_width =
      some (.num 1.08) ∧
    (tuneTrace ⟨some "lines+markers", some .nonnum, some .nonnum⟩).marker_size =
      some (.num 6.72) := by
  have hfig := tune_traces_bounds_and_defaults
    ⟨[⟨some "lines+markers", some .nonnum, some .nonnum⟩], [], none, none,
     none, none, none, none, none, none, none, none, none, none⟩
  refine ⟨by decide, ?_, ?_⟩
  · exact (hfig.2.2.1 ⟨some "lines+markers", some .nonnum, some .nonnum⟩).1
      (by decide) _ rfl (fun q h => by cases h)
  · exact (hfig.2.2.1 ⟨some "lines+markers", some .nonnum, some .nonnum⟩).2
      (by decide) _ rfl (fun q h => by cases h) (fun l h => by cases h)

/-! ### Claim C5: annotation restyle and the objective text -/

theorem findObjText_startsWith :
    ∀ (anns : List Annot) (t : String),
    findObjText anns = some t → pyStartsWith t "OBJ" = true := by
  intro anns
  induction anns with
  | nil => intro t h; cases h
  | cons a rest ih =>
    intro t h
    simp only [findObjText] at h
    split at h
    · split at h
      · cases h
        assumption
      · exact ih t h
    · exact ih t h

theorem findObjText_ne_empty {anns : List Annot} {t : String}
    (h : findObjText anns = some t) : t ≠ "" := by
  intro he
  have hs := findObjText_startsWith anns t h
  rw [he] at hs
  exact absurd hs (by decide)

set_option maxRecDepth 16384 in
/-- C5: the restyle discards all pre-existing annotations and installs a
single new block. When the scan finds an annotation whose stripped text
starts with `"OBJ"` and `keep_obj` is true (so `solution_plot` passes the
found text through), that exact text is the bolded first `<br>`-separated
line of the new block; when `keep_obj` is false (`solution_plot` passes
`None`), the block is the fixed legend, and no text starting with `"OBJ"`
occurs anywhere inside it. -/
theorem restyle_annotations_objective (fig : Figure) :
    (∀ objText : Option String,
      ((_restyle_annotations fig objText).annotations).length = 1) ∧
    (∀ t, findObjText fig.annotations = some t →
      (_restyle_annotations fig (findObjText fig.annotations)).annotations =
        [newAnnotBlock ("<b>" ++ t ++ "</b>" ++ "<br>" ++ joinBr ("" :: legendLines))]) ∧
    ((_restyle_annotations fig none).annotations = [newAnnotBlock (joinBr legendLines)] ∧
      ∀ t, pyStartsWith t "OBJ" = true →
        ¬ (t.toList <:+: (joinBr legendLines).toList)) := by
  refine ⟨fun objText => ?_, ?_, rfl, ?_⟩
  · cases objText with
    | none => rfl
    | some t => by_cases ht : t = "" <;> simp [_restyle_annotations, ht]
  · intro t h
    rw [h]
    have hne := findObjText_ne_empty h
    simp only [_restyle_annotations, if_neg hne]
    rfl
  · intro t ht hinf
    have hp : "OBJ".toList <+: t.toList := List.isPrefixOf_iff_prefix.mp ht
    exact absurd (hp.isInfix.trans hinf) (by decide)

set_option maxRecDepth 16384 in
/-- Witness for C5: a concrete figure with an `"OBJ 1234"` objective
annotation has it preserved verbatim as the bolded first line. -/
theorem restyle_annotations_objective_witness :
    findObjText [Annot.mk (some "  OBJ 1234  ") none none none none none none
        none none none none none none none none] = some "OBJ 1234" ∧
    (_restyle_annotations
        (Figure.mk [] [Annot.mk (some "  OBJ 1234  ") none none none none none
          none none none none none none none none none]
          none none none none none none none none none none none none)
        (findObjText [Annot.mk (some "  OBJ 1234  ") none none none none none
          none none none none none none none none none])).annotations =
      [newAnnotBlock ("<b>" ++ "OBJ 1234" ++ "</b>" ++ "<br>" ++ joinBr ("" :: legendLines))] := by
  constructor
  · decide
  · have h := (restyle_annotations_objective
      (Figure.mk [] [Annot.mk (some "  OBJ 1234  ") none none none none none
        none none none none none none none none none]
        none none none none none none none none none none none none)).2.1
      "OBJ 1234" (by decide)
    exact h

/-! ### Dict and parsing lemmas for the layout claims -/

theorem dictKeys_dictSet {β : Type} (d : List (ℤ × β)) (k : ℤ) (v : β) :
    dictKeys (dictSet d k v) =
      if k ∈ dictKeys d then dictKeys d else dictKeys d ++ [k] := by
  unfold dictSet
  by_cases h : k ∈ dictKeys d
  · rw [if_pos h, if_pos h]
    simp only [dictKeys, List.map_map]
    apply List.map_congr_left
    intro p _
    by_cases hp : p.1 = k
    · simp [Function.comp, hp]
    · simp [Function.comp, hp]
  · rw [if_neg h, if_neg h]
    simp [dictKeys]

theorem nodup_dictKeys_dictSet {β : Type} (d : List (ℤ × β)) (k : ℤ) (v : β)
    (h : (dictKeys d).Nodup) : (dictKeys (dictSet d k v)).Nodup := by
  rw [dictKeys_dictSet]
  by_cases hk : k ∈ dictKeys d
  · simpa [hk] using h
  · simp only [hk, if_false, Bool.false_eq_true, if_neg]
    rw [List.nodup_append]
    exact ⟨h, List.nodup_singleton k, by simpa [List.disjoint_singleton] using hk⟩

theorem foldl_dictSet_nodup {β : Type} :
    ∀ (l acc : List (ℤ × β)),
    (dictKeys acc ++ dictKeys l).Nodup →
    l.foldl (fun d q => dictSet d q.1 q.2) acc = acc ++ l := by
  intro l
  induction l with
  | nil => intro acc _; simp
  | cons p rest ih =>
    intro acc h
    have hfresh : p.1 ∉ dictKeys acc := by
      rw [List.nodup_append] at h
      intro hmem
      exact h.2.2 hmem (by simp [dictKeys])
    have hset : dictSet acc p.1 p.2 = acc ++ [p] := by
      rw [dictSet_fresh acc p.1 p.2 hfresh]
    have h' : (dictKeys (acc ++ [p]) ++ dictKeys rest).Nodup := by
      have : dictKeys acc ++ dictKeys (p :: rest) =
          dictKeys (acc ++ [p]) ++ dictKeys rest := by
        simp [dictKeys]
      rw [← this]
      exact h
    calc (p :: rest).foldl (fun d q => dictSet d q.1 q.2) acc
        = rest.foldl (fun d q => dictSet d q.1 q.2) (acc ++ [p]) := by
          rw [List.foldl_cons, hset]
      _ = (acc ++ [p]) ++ rest := ih (acc ++ [p]) h'
      _ = acc ++ p :: rest := by simp

theorem pyDictOfList_eq_self {β : Type} (l : List (ℤ × β))
    (h : (dictKeys l).Nodup) : pyDictOfList l = l := by
  have := foldl_dictSet_nodup l [] (by simpa [dictKeys] using h)
  simpa [pyDictOfList] using this

theorem mem_dictSet {β : Type} {p : ℤ × β} {d : List (ℤ × β)} {k : ℤ} {v : β}
    (h : p ∈ dictSet d k v) : p ∈ d ∨ p = (k, v) := by
  unfold dictSet at h
  split at h
  · obtain ⟨q, hq, he⟩ := List.mem_map.mp h
    by_cases hqk : q.1 = k
    · right; rw [← he, if_pos hqk]
    · left; rw [← he, if_neg hqk]; exact hq
  · rcases List.mem_append.mp h with h1 | h1
    · exact Or.inl h1
    · exact Or.inr (List.mem_singleton.mp h1)

theorem mem_foldl_dictSet {β : Type} {p : ℤ × β} :
    ∀ (l acc : List (ℤ × β)),
    p ∈ l.foldl (fun d q => dictSet d q.1 q.2) acc → p ∈ acc ∨ p ∈ l := by
  intro l
  induction l with
  | nil => intro acc h; exact Or.inl h
  | cons q rest ih =>
    intro acc h
    rw [List.foldl_cons] at h
    rcases ih (dictSet acc q.1 q.2) h with h1 | h1
    · rcases mem_dictSet h1 with h2 | h2
      · exact Or.inl h2
      · exact Or.inr (by rw [h2]; exact List.mem_cons_self _ _)
    · exact Or.inr (List.mem_cons_of_mem _ h1)

theorem mem_pyDictOfList {β : Type} {p : ℤ × β} {l : List (ℤ × β)}
    (h : p ∈ pyDictOfList l) : p ∈ l := by
  rcases mem_foldl_dictSet l [] h with h1 | h1
  · cases h1
  · exact h1

theorem dictGet?_some_mem {β : Type} {d : List (ℤ × β)} {k : ℤ} {v : β}
    (h : dictGet? d k = some v) : (k, v) ∈ d := by
  unfold dictGet? at h
  obtain ⟨q, hq, he⟩ := Option.map_eq_some'.mp h
  have hk : q.1 = k := by
    have := List.find?_some hq
    simpa using this
  have hm := List.mem_of_find?_eq_some hq
  obtain ⟨q1, q2⟩ := q
  cases hk
  cases he
  exact hm

theorem nodup_keys_val_unique {β : Type} :
    ∀ {d : List (ℤ × β)}, (dictKeys d).Nodup →
    ∀ {k : ℤ} {v w : β}, (k, v) ∈ d → (k, w) ∈ d → v = w := by
  intro d
  induction d with
  | nil => intro _ k v w h; cases h
  | cons q rest ih =>
    intro hnd k v w hv hw
    have hnd2 : (q.1 :: dictKeys rest).Nodup := hnd
    have hnd' : (dictKeys rest).Nodup ∧ q.1 ∉ dictKeys rest :=
      ⟨(List.nodup_cons.mp hnd2).2, (List.nodup_cons.mp hnd2).1⟩
    rcases List.mem_cons.mp hv with h1 | h1 <;> rcases List.mem_cons.mp hw with h2 | h2
    · rw [← h1] at h2; exact (Prod.mk.injEq _ _ _ _ ▸ h2.symm).2
    · exfalso
      apply hnd'.2
      rw [← h1]
      exact List.mem_map.mpr ⟨(k, w), h2, rfl⟩
    · exfalso
      apply hnd'.2
      rw [← h2]
      exact List.mem_map.mpr ⟨(k, v), h1, rfl⟩
    · exact ih hnd'.1 h1 h2

theorem dictGet?_nodup_getElem {β : Type} :
    ∀ (d : List (ℤ × β)), (dictKeys d).Nodup →
    ∀ i (h : i < d.length),
      dictGet? d (d.get ⟨i, h⟩).1 = some (d.get ⟨i, h⟩).2 := by
  intro d
  induction d with
  | nil => intro _ i h; simp at h
  | cons q rest ih =>
    intro hnd i h
    have hnd2 : (q.1 :: dictKeys rest).Nodup := hnd
    have hnd' : (dictKeys rest).Nodup ∧ q.1 ∉ dictKeys rest :=
      ⟨(List.nodup_cons.mp hnd2).2, (List.nodup_cons.mp hnd2).1⟩
    cases i with
    | zero =>
      show dictGet? (q :: rest) q.1 = some q.2
      unfold dictGet?
      rw [List.find?_cons_of_pos _ (by simp)]
      rfl
    | succ j =>
      have hj : j < rest.length := by simpa using h
      have he : (q :: rest).get ⟨j + 1, h⟩ = rest.get ⟨j, hj⟩ := rfl
      rw [he]
      have hne : ¬ (q.1 = (rest.get ⟨j, hj⟩).1) := by
        intro hq
        apply hnd'.2
        rw [hq]
        exact List.mem_map.mpr ⟨_, List.get_mem rest _ hj, rfl⟩
      unfold dictGet?
      rw [List.find?_cons_of_neg _ (by simpa using hne)]
      exact ih hnd'.1 j hj

theorem parseNodes_keys (P : PyPrims) :
    ∀ (ls : List (List String)) (x y x' y' : List (ℤ × ℚ)),
    parseNodes P ls x y = .ok (x', y') →
    dictKeys x = dictKeys y → (dictKeys x).Nodup →
    dictKeys x' = dictKeys y' ∧ (dictKeys x').Nodup := by
  intro ls
  induction ls with
  | nil =>
    intro x y x' y' h hxy hnd
    simp only [parseNodes, Except.ok.injEq, Prod.mk.injEq] at h
    obtain ⟨h1, h2⟩ := h
    rw [← h1, ← h2]
    exact ⟨hxy, hnd⟩
  | cons parts rest ih =>
    intro x y x' y' h hxy hnd
    simp only [parseNodes] at h
    split at h
    · split at h
      · cases h
      · split at h
        · cases h
        · split at h
          · cases h
          · refine ih _ _ _ _ h ?_ ?_
            · rw [dictKeys_dictSet, dictKeys_dictSet, hxy]
            · exact nodup_dictKeys_dictSet _ _ _ hnd
    · exact ih _ _ _ _ h hxy hnd

theorem foldl_min_sub (c : ℚ) :
    ∀ (t : List ℚ) (a : ℚ),
    (t.map (fun v => v - c)).foldl min (a - c) = t.foldl min a - c := by
  intro t
  induction t with
  | nil => intro a; rfl
  | cons b rest ih =>
    intro a
    simp only [List.map_cons, List.foldl_cons]
    rw [min_sub_sub_right]
    exact ih (min a b)

theorem pyMin_map_sub (l : List ℚ) (c : ℚ) :
    pyMin (l.map (fun v => v - c)) = (pyMin l).map (fun v => v - c) := by
  cases l with
  | nil => rfl
  | cons a t => simp [pyMin, foldl_min_sub]

theorem countToID_inj {IDC : List (ℤ × ℤ)} (hnd : (dictKeys IDC).Nodup)
    {c1 c2 b : ℤ}
    (h1 : dictGet? (pyDictOfList (IDC.map (fun p => (p.2, p.1)))) c1 = some b)
    (h2 : dictGet? (pyDictOfList (IDC.map (fun p => (p.2, p.1)))) c2 = some b) :
    c1 = c2 := by
  have m1 : (b, c1) ∈ IDC := by
    obtain ⟨p, hp, he⟩ := List.mem_map.mp (mem_pyDictOfList (dictGet?_some_mem h1))
    obtain ⟨pa, pb⟩ := p
    injection he with he1 he2
    rw [← he1, ← he2]
    exact hp
  have m2 : (b, c2) ∈ IDC := by
    obtain ⟨p, hp, he⟩ := List.mem_map.mp (mem_pyDictOfList (dictGet?_some_mem h2))
    obtain ⟨pa, pb⟩ := p
    injection he with he1 he2
    rw [← he1, ← he2]
    exact hp
  exact nodup_keys_val_unique hnd m1 m2

theorem map_lookup_eq_vals {x y : List (ℤ × ℚ)} (hxy : dictKeys x = dictKeys y)
    (hndy : (dictKeys y).Nodup) :
    x.map (fun p => (dictGet? y p.1).getD 0) = y.map Prod.snd := by
  have hlen : x.length = y.length := by
    have := congrArg List.length hxy
    simpa [dictKeys] using this
  apply List.ext_getElem?
  intro i
  rw [List.getElem?_map, List.getElem?_map]
  by_cases hi : i < x.length
  · have hiy : i < y.length := by omega
    rw [List.getElem?_eq_getElem hi, List.getElem?_eq_getElem hiy]
    have hkey : (x.get ⟨i, hi⟩).1 = (y.get ⟨i, hiy⟩).1 := by
      have h2 := congrArg (fun l => l[i]?) hxy
      simp only [dictKeys, List.getElem?_map, List.getElem?_eq_getElem hi,
        List.getElem?_eq_getElem hiy, Option.map_some'] at h2
      simpa using h2
    show some ((dictGet? y (x.get ⟨i, hi⟩).1).getD 0) = some (y.get ⟨i, hiy⟩).2
    rw [hkey, dictGet?_nodup_getElem y hndy i hiy]
    rfl
  · have h1 : x.length ≤ i := by omega
    have h2 : y.length ≤ i := by omega
    rw [List.getElem?_eq_none h1, List.getElem?_eq_none h2]
    rfl

theorem emitCoords_ok {CountToID : List (ℤ × ℤ)} {y : List (ℤ × ℚ)} {minx miny : ℚ}
    (hinj : ∀ c1 c2 b, dictGet? CountToID c1 = some b →
      dictGet? CountToID c2 = some b → c1 = c2) :
    ∀ (xs : List (ℤ × ℚ)) (acc m : List (ℤ × ℚ × ℚ)),
    emitCoords CountToID y minx miny xs acc = .ok m →
    (∀ p ∈ xs, ∀ b, dictGet? CountToID p.1 = some b → b ∉ dictKeys acc) →
    (dictKeys xs).Nodup →
    m = acc ++ xs.map (fun p =>
        ((dictGet? CountToID p.1).getD 0,
         ((dictGet? y p.1).getD 0 - miny, p.2 - minx))) ∧
    ∀ p ∈ xs, (dictGet? y p.1).isSome ∧ (dictGet? CountToID p.1).isSome := by
  intro xs
  induction xs with
  | nil =>
    intro acc m h _ _
    simp only [emitCoords] at h
    cases h
    simp
  | cons q rest ih =>
    intro acc m h hfresh hnd
    obtain ⟨cnt, X⟩ := q
    simp only [emitCoords] at h
    split at h
    · cases h
    rename_i Y hY
    split at h
    · cases h
    rename_i bus hB
    have hbfresh : bus ∉ dictKeys acc := hfresh (cnt, X) (List.mem_cons_self _ _) bus hB
    rw [dictSet_fresh _ _ _ hbfresh] at h
    have hnd2 : (cnt :: dictKeys rest).Nodup := hnd
    obtain ⟨hcnt_nin, hnd_rest⟩ := List.nodup_cons.mp hnd2
    have hfresh' : ∀ p ∈ rest, ∀ b, dictGet? CountToID p.1 = some b →
        b ∉ dictKeys (acc ++ [(bus, (Y - miny, X - minx))]) := by
      intro p hp b hpb hmem
      have hmem2 : b ∈ dictKeys acc ++ dictKeys [(bus, (Y - miny, X - minx))] := by
        simpa only [dictKeys, List.map_append] using hmem
      rcases List.mem_append.mp hmem2 with hm1 | hm2
      · exact hfresh p (List.mem_cons_of_mem _ hp) b hpb hm1
      · have hb : b = bus := by simpa [dictKeys] using hm2
        rw [hb] at hpb
        have hpc : p.1 = cnt := hinj p.1 cnt bus hpb hB
        apply hcnt_nin
        rw [← hpc]
        exact List.mem_map.mpr ⟨p, hp, rfl⟩
    obtain ⟨hm, hsome⟩ := ih (acc ++ [(bus, (Y - miny, X - minx))]) m h hfresh' hnd_rest
    constructor
    · rw [hm]
      simp only [List.map_cons, hY, hB, Option.getD_some, List.append_assoc,
        List.singleton_append]
    · intro p hp
      rcases List.mem_cons.mp hp with h1 | h1
      · rw [h1]
        exact ⟨by rw [hY]; rfl, by rw [hB]; rfl⟩
      · exact hsome p h1

/-! ### Claim C6: shift-to-origin normalization -/

/-- C6: whenever `_coords_from_sfdp` returns a coordinate map (so the tool
ran, at least one `node` line parsed, and every count mapped back to a bus),
the minimum over the emitted x components and the minimum over the emitted y
components are both exactly `0` — the shift-to-origin normalization. The
`Nodup` hypothesis is the Python-dict invariant that `IDtoCountmap` has no
repeated bus-id key. -/
theorem sfdp_normalized_min_zero {Case : Type} (P : PyPrims)
    (convert : Case → AllData) (case : Case) (tool : ToolOutcome)
    (m : List (ℤ × ℚ × ℚ))
    (hnd : (dictKeys (convert case).IDtoCountmap).Nodup)
    (h : _coords_from_sfdp P convert case tool = .ok m) :
    m ≠ [] ∧ pyMin (m.map (fun p => p.2.2)) = some 0 ∧
      pyMin (m.map (fun p => p.2.1)) = some 0 := by
  cases tool with
  | fileNotFound => exact absurd h (by simp [_coords_from_sfdp])
  | calledProcessError => exact absurd h (by simp [_coords_from_sfdp])
  | output outLines =>
    simp only [_coords_from_sfdp] at h
    split at h
    · cases h
    rename_i x y hpn
    rcases hmx : pyMin (x.map Prod.snd) with _ | minx <;>
      rcases hmy : pyMin (y.map Prod.snd) with _ | miny <;>
        simp only [hmx, hmy] at h <;> try cases h
    obtain ⟨hxy, hndx⟩ := parseNodes_keys P outLines [] [] x y hpn rfl
      (by simp [dictKeys])
    have hndy : (dictKeys y).Nodup := hxy ▸ hndx
    have hinj : ∀ c1 c2 b,
        dictGet? (pyDictOfList ((convert case).IDtoCountmap.map (fun p => (p.2, p.1)))) c1 = some b →
        dictGet? (pyDictOfList ((convert case).IDtoCountmap.map (fun p => (p.2, p.1)))) c2 = some b →
        c1 = c2 := fun c1 c2 b h1 h2 => countToID_inj hnd h1 h2
    obtain ⟨hm, -⟩ := emitCoords_ok hinj x [] m h (by simp [dictKeys]) hndx
    have hxne : x ≠ [] := by
      intro he
      rw [he] at hmx
      cases hmx
    have hmne : m ≠ [] := by
      rw [hm]
      simpa using hxne
    refine ⟨hmne, ?_, ?_⟩
    · have hxcomp : m.map (fun p => p.2.2) =
          (x.map Prod.snd).map (fun v => v - minx) := by
        rw [hm]
        simp only [List.nil_append, List.map_map]
        rfl
      rw [hxcomp, pyMin_map_sub, hmx]
      simp
    · have hycomp : m.map (fun p => p.2.1) =
          (x.map (fun p => (dictGet? y p.1).getD 0)).map (fun v => v - miny) := by
        rw [hm]
        simp only [List.nil_append, List.map_map]
        rfl
      rw [hycomp, map_lookup_eq_vals hxy hndy, pyMin_map_sub, hmy]
      simp

/-- Witness for C6 on a concrete one-node tool output. -/
theorem sfdp_normalized_min_zero_witness :
    (dictKeys (AllData.mk [(5, 1)] none).IDtoCountmap).Nodup ∧
    (([((5 : ℤ), ((0 : ℚ), (0 : ℚ)))] : List (ℤ × ℚ × ℚ)) ≠ [] ∧
      pyMin (([((5 : ℤ), ((0 : ℚ), (0 : ℚ)))] : List (ℤ × ℚ × ℚ)).map (fun p => p.2.2)) = some 0 ∧
      pyMin (([((5 : ℤ), ((0 : ℚ), (0 : ℚ)))] : List (ℤ × ℚ × ℚ)).map (fun p => p.2.1)) = some 0) :=
  ⟨by decide,
   sfdp_normalized_min_zero ⟨fun _ => some 1, fun _ => some 0, 0, id, id⟩
     (fun _ : Unit => AllData.mk [(5, 1)] none) () (.output [["node", "1", "0", "0"]])
     [(5, (0, 0))] (by decide)
     (by simp +decide [_coords_from_sfdp, parseNodes, emitCoords, dictSet, dictGet?,
       dictKeys, pyDictOfList, pyMin])⟩

/-! ### Claim C2: the circular fallback layout -/

/-- C2: for a network with at least one bus, `_coords_circle` has exactly one
entry per bus identifier (its keys are a permutation of the `IDtoCountmap`
keys, without duplicates), keys appear in ascending order, and the entry of
rank `i` among the `n` bus ids carries the pair
`(100·sin(2πi/n), 100·cos(2πi/n))` — the `(y, x)` point at angle `2πi/n` on
the radius-100 circle. Every coordinate is an exact rational built from the
abstract `sin`/`cos`, hence finite by construction in this model. -/
theorem coords_circle_spec {Case : Type} (P : PyPrims) (convert : Case → AllData)
    (case : Case)
    (hnd : (dictKeys (convert case).IDtoCountmap).Nodup)
    (hne : (convert case).IDtoCountmap ≠ []) :
    List.Perm (dictKeys (_coords_circle P convert case))
      ((convert case).IDtoCountmap.map Prod.fst) ∧
    (dictKeys (_coords_circle P convert case)).Sorted (· ≤ ·) ∧
    (dictKeys (_coords_circle P convert case)).Nodup ∧
    (_coords_circle P convert case).length = (convert case).IDtoCountmap.length ∧
    (∀ (i : ℕ) (b : ℤ), (dictKeys (_coords_circle P convert case))[i]? = some b →
      (_coords_circle P convert case)[i]? =
        some (b,
          (100 * P.sin (2 * P.pi * (i : ℚ) / ((convert case).IDtoCountmap.length : ℚ)),
           100 * P.cos (2 * P.pi * (i : ℚ) / ((convert case).IDtoCountmap.length : ℚ))))) := by
  have hkeys_nd : ((convert case).IDtoCountmap.map Prod.fst).Nodup := hnd
  have hperm_sort :
      List.Perm (((convert case).IDtoCountmap.map Prod.fst).insertionSort (· ≤ ·))
        ((convert case).IDtoCountmap.map Prod.fst) :=
    List.perm_insertionSort _ _
  have hids_nd :
      (((convert case).IDtoCountmap.map Prod.fst).insertionSort (· ≤ ·)).Nodup :=
    hperm_sort.nodup_iff.mpr hkeys_nd
  have hlen_ids :
      (((convert case).IDtoCountmap.map Prod.fst).insertionSort (· ≤ ·)).length =
        (convert case).IDtoCountmap.length := by
    rw [hperm_sort.length_eq, List.length_map]
  have hpos : 0 < (convert case).IDtoCountmap.length := List.length_pos.mpr hne
  have hkeys_mapped :
      dictKeys ((((convert case).IDtoCountmap.map Prod.fst).insertionSort (· ≤ ·)).enum.map
        (fun p =>
          (p.2, (100 * P.sin (2 * P.pi * (p.1 : ℚ) /
                   ((max 1 (((convert case).IDtoCountmap.map Prod.fst).insertionSort (· ≤ ·)).length : ℕ) : ℚ)),
                 100 * P.cos (2 * P.pi * (p.1 : ℚ) /
                   ((max 1 (((convert case).IDtoCountmap.map Prod.fst).insertionSort (· ≤ ·)).length : ℕ) : ℚ)))))) =
        ((convert case).IDtoCountmap.map Prod.fst).insertionSort (· ≤ ·) := by
    simp only [dictKeys, List.map_map]
    exact List.enum_map_snd _
  have hm : _coords_circle P convert case =
      (((convert case).IDtoCountmap.map Prod.fst).insertionSort (· ≤ ·)).enum.map
        (fun p =>
          (p.2, (100 * P.sin (2 * P.pi * (p.1 : ℚ) /
                   ((max 1 (((convert case).IDtoCountmap.map Prod.fst).insertionSort (· ≤ ·)).length : ℕ) : ℚ)),
                 100 * P.cos (2 * P.pi * (p.1 : ℚ) /
                   ((max 1 (((convert case).IDtoCountmap.map Prod.fst).insertionSort (· ≤ ·)).length : ℕ) : ℚ))))) := by
    refine Eq.trans ?_ (pyDictOfList_eq_self _ (by rw [hkeys_mapped]; exact hids_nd))
    rfl
  have hmax : (max 1 (((convert case).IDtoCountmap.map Prod.fst).insertionSort (· ≤ ·)).length : ℕ) =
      (((convert case).IDtoCountmap.map Prod.fst).insertionSort (· ≤ ·)).length := by
    rw [hlen_ids]
    exact Nat.max_eq_right hpos
  refine ⟨?_, ?_, ?_, ?_, ?_⟩
  · rw [hm, hkeys_mapped]
    exact hperm_sort
  · rw [hm, hkeys_mapped]
    exact List.sorted_insertionSort _ _
  · rw [hm, hkeys_mapped]
    exact hids_nd
  · rw [hm, List.length_map, List.enum_length]
    exact hlen_ids
  · intro i b hb
    rw [hm, hkeys_mapped] at hb
    rw [hm, List.getElem?_map, List.getElem?_enum, hb]
    simp only [Option.map_some']
    rw [hmax, hlen_ids]

/-- Witness for C2 on the 3-bus network with ids `{1, 2, 3}` (given out of
order): rank 1 in ascending order is bus 2, placed at angle `2π·1/3`. -/
theorem coords_circle_spec_witness :
    (dictKeys (AllData.mk [(2, 1), (1, 2), (3, 3)] none).IDtoCountmap).Nodup ∧
    (_coords_circle ⟨fun _ => none, fun _ => none, 3, id, id⟩
        (fun _ : Unit => AllData.mk [(2, 1), (1, 2), (3, 3)] none) ())[1]? =
      some (2,
        (100 * (2 * (3 : ℚ) * ((1 : ℕ) : ℚ) / (((3 : ℕ) : ℚ))),
         100 * (2 * (3 : ℚ) * ((1 : ℕ) : ℚ) / (((3 : ℕ) : ℚ))))) := by
  refine ⟨by decide, ?_⟩
  have h := (coords_circle_spec ⟨fun _ => none, fun _ => none, 3, id, id⟩
    (fun _ : Unit => AllData.mk [(2, 1), (1, 2), (3, 3)] none) ()
    (by decide) (by decide)).2.2.2.2 1 2 (by decide)
  exact h

/-! ### Claim C8: axis swap and inverse-map keying -/

/-- C8: both layout strategies emit each coordinate as a `(y, x)` pair with
the axes swapped from the tool's native `(x, y)` order, and the
force-directed strategy keys its output by original bus identifiers through
the inverse `{v: k for k, v in IDtoCount.items()}` of `IDtoCountmap`: when
the parsed native positions are `x[i] = (cnt, X)` and `y[i] = (cnt, Y)`, the
`i`-th emitted entry is `CountToID[cnt] ↦ (Y - miny, X - minx)`; the circular
strategy's `i`-th entry is `bus ↦ (R·sin θ, R·cos θ)`, the sine (native y)
component first. -/
theorem layout_swap_and_inverse_keys {Case : Type} (P : PyPrims)
    (convert : Case → AllData) (case : Case)
    (hnd : (dictKeys (convert case).IDtoCountmap).Nodup) :
    (∀ (outLines : List (List String)) (x y : List (ℤ × ℚ)) (minx miny : ℚ)
        (m : List (ℤ × ℚ × ℚ)),
      parseNodes P outLines [] [] = .ok (x, y) →
      pyMin (x.map Prod.snd) = some minx →
      pyMin (y.map Prod.snd) = some miny →
      _coords_from_sfdp P convert case (.output outLines) = .ok m →
      m.length = x.length ∧
      ∀ (i : ℕ) (cnt : ℤ) (X : ℚ), x[i]? = some (cnt, X) →
        ∃ (Y : ℚ) (b : ℤ),
          y[i]? = some (cnt, Y) ∧
          dictGet? (pyDictOfList ((convert case).IDtoCountmap.map (fun p => (p.2, p.1)))) cnt
            = some b ∧
          m[i]? = some (b, (Y - miny, X - minx))) ∧
    (∀ (i : ℕ) (b : ℤ),
      (dictKeys (_coords_circle P convert case))[i]? = some b →
      (_coords_circle P convert case)[i]? =
        some (b,
          (100 * P.sin (2 * P.pi * (i : ℚ) /
             ((max 1 ((convert case).IDtoCountmap.length) : ℕ) : ℚ)),
           100 * P.cos (2 * P.pi * (i : ℚ) /
             ((max 1 ((convert case).IDtoCountmap.length) : ℕ) : ℚ))))) := by
  constructor
  · intro outLines x y minx miny m hpn hmx hmy h
    simp only [_coords_from_sfdp, hpn, hmx, hmy] at h
    obtain ⟨hxy, hndx⟩ := parseNodes_keys P outLines [] [] x y hpn rfl
      (by simp [dictKeys])
    have hndy : (dictKeys y).Nodup := hxy ▸ hndx
    have hinj : ∀ c1 c2 b,
        dictGet? (pyDictOfList ((convert case).IDtoCountmap.map (fun p => (p.2, p.1)))) c1 = some b →
        dictGet? (pyDictOfList ((convert case).IDtoCountmap.map (fun p => (p.2, p.1)))) c2 = some b →
        c1 = c2 := fun c1 c2 b h1 h2 => countToID_inj hnd h1 h2
    obtain ⟨hm, hsome⟩ := emitCoords_ok hinj x [] m h (by simp [dictKeys]) hndx
    have hlen_xy : x.length = y.length := by
      have := congrArg List.length hxy
      simpa [dictKeys] using this
    constructor
    · rw [hm]
      simp
    · intro i cnt X hxi
      have hix : i < x.length := by
        rcases List.getElem?_eq_some.mp hxi with ⟨hw, -⟩
        exact hw
      have hiy : i < y.length := by omega
      have hmemx : (cnt, X) ∈ x := List.getElem?_mem hxi
      obtain ⟨hYs, hBs⟩ := hsome (cnt, X) hmemx
      have hkey : (x.get ⟨i, hix⟩).1 = (y.get ⟨i, hiy⟩).1 := by
        have h2 := congrArg (fun l => l[i]?) hxy
        simp only [dictKeys, List.getElem?_map, List.getElem?_eq_getElem hix,
          List.getElem?_eq_getElem hiy, Option.map_some'] at h2
        simpa using h2
      have hxg : x.get ⟨i, hix⟩ = (cnt, X) := by
        have := List.getElem?_eq_getElem hix
        rw [hxi] at this
        exact (Option.some.injEq _ _ ▸ this.symm)
      have hycnt : (y.get ⟨i, hiy⟩).1 = cnt := by
        rw [← hkey, hxg]
      refine ⟨(y.get ⟨i, hiy⟩).2, ?_⟩
      have hyl : dictGet? y cnt = some ((y.get ⟨i, hiy⟩).2) := by
        rw [← hycnt]
        exact dictGet?_nodup_getElem y hndy i hiy
      obtain ⟨b, hb⟩ := Option.isSome_iff_exists.mp hBs
      refine ⟨b, ?_, hb, ?_⟩
      · rw [List.getElem?_eq_getElem hiy]
        have : y.get ⟨i, hiy⟩ = (cnt, (y.get ⟨i, hiy⟩).2) := by
          rw [← hycnt]
        exact congrArg some this
      · rw [hm]
        simp only [List.nil_append, List.getElem?_map, hxi, Option.map_some']
        rw [hyl, hb]
        rfl
  · intro i b hb
    have hperm_sort :
        List.Perm (((convert case).IDtoCountmap.map Prod.fst).insertionSort (· ≤ ·))
          ((convert case).IDtoCountmap.map Prod.fst) :=
      List.perm_insertionSort _ _
    have hids_nd :
        (((convert case).IDtoCountmap.map Prod.fst).insertionSort (· ≤ ·)).Nodup :=
      hperm_sort.nodup_iff.mpr hnd
    have hlen_ids :
        (((convert case).IDtoCountmap.map Prod.fst).insertionSort (· ≤ ·)).length =
          (convert case).IDtoCountmap.length := by
      rw [hperm_sort.length_eq, List.length_map]
    have hkeys_mapped :
        dictKeys ((((convert case).IDtoCountmap.map Prod.fst).insertionSort (· ≤ ·)).enum.map
          (fun p =>
            (p.2, (100 * P.sin (2 * P.pi * (p.1 : ℚ) /
                     ((max 1 (((convert case).IDtoCountmap.map Prod.fst).insertionSort (· ≤ ·)).length : ℕ) : ℚ)),
                   100 * P.cos (2 * P.pi * (p.1 : ℚ) /
                     ((max 1 (((convert case).IDtoCountmap.map Prod.fst).insertionSort (· ≤ ·)).length : ℕ) : ℚ)))))) =
          ((convert case).IDtoCountmap.map Prod.fst).insertionSort (· ≤ ·) := by
      simp only [dictKeys, List.map_map]
      exact List.enum_map_snd _
    have hm : _coords_circle P convert case =
        (((convert case).IDtoCountmap.map Prod.fst).insertionSort (· ≤ ·)).enum.map
          (fun p =>
            (p.2, (100 * P.sin (2 * P.pi * (p.1 : ℚ) /
                     ((max 1 (((convert case).IDtoCountmap.map Prod.fst).insertionSort (· ≤ ·)).length : ℕ) : ℚ)),
                   100 * P.cos (2 * P.pi * (p.1 : ℚ) /
                     ((max 1 (((convert case).IDtoCountmap.map Prod.fst).insertionSort (· ≤ ·)).length : ℕ) : ℚ))))) := by
      refine Eq.trans ?_ (pyDictOfList_eq_self _ (by rw [hkeys_mapped]; exact hids_nd))
      rfl
    rw [hm, hkeys_mapped] at hb
    rw [hm, List.getElem?_map, List.getElem?_enum, hb]
    simp only [Option.map_some']
    rw [hlen_ids]

/-- Witness for C8: in a concrete run, count 1 maps through the inverse of
`IDtoCountmap` to bus 5 and the emitted pair is `(Y - miny, X - minx)`. -/
theorem layout_swap_and_inverse_keys_witness :
    ∃ (Y : ℚ) (b : ℤ),
      ([((1 : ℤ), (0 : ℚ))] : List (ℤ × ℚ))[0]? = some (1, Y) ∧
      dictGet? (pyDictOfList (([((5 : ℤ), (1 : ℤ))]).map (fun p => (p.2, p.1)))) 1 = some b ∧
      ([((5 : ℤ), ((0 : ℚ), (0 : ℚ)))] : List (ℤ × ℚ × ℚ))[0]? =
        some (b, (Y - 0, 0 - 0)) := by
  have h := (layout_swap_and_inverse_keys ⟨fun _ => some 1, fun _ => some 0, 0, id, id⟩
    (fun _ : Unit => AllData.mk [(5, 1)] none) () (by decide)).1
    [["node", "1", "0", "0"]] [(1, 0)] [(1, 0)] 0 0 [(5, (0, 0))]
    (by simp +decide [parseNodes, dictSet, dictKeys]) (by decide) (by decide)
    (by simp +decide [_coords_from_sfdp, parseNodes, emitCoords, dictSet, dictGet?,
      dictKeys, pyDictOfList, pyMin])
  exact h.2 0 1 0 (by decide)
